import Mathlib

/-!
Verification of `check_phpfpm_status.py`, a Nagios check for PHP-FPM pools.

The script is shallowly embedded below: byte strings are `List Nat`
(each entry one byte, 0..255), Python `str` values are `List Char`
(Unicode code points), and process termination is the explicit
`PyExit` type (`exited c` for `sys.exit(c)`, `raised m` for an
uncaught exception, which makes the interpreter exit with status 1).
-/

set_option autoImplicit false
set_option maxRecDepth 8000

namespace CheckPhpFpm

/-- Code points of a Lean string, used to write Python `str` constants. -/
def strChars (s : String) : List Char := s.data

/-- Code points of a Lean string as natural numbers. -/
def strCodes (s : String) : List Nat := s.data.map Char.toNat

/-- UTF-8 bytes of a single code point, as produced by Python `str.encode()`.
(Surrogate code points, which `encode` rejects, do not occur in any input
considered here.) -/
def utf8Char (c : Nat) : List Nat :=
  if c < 128 then [c]
  else if c < 2048 then [192 + c / 64, 128 + c % 64]
  else if c < 65536 then [224 + c / 4096, 128 + c / 64 % 64, 128 + c % 64]
  else [240 + c / 262144, 128 + c / 4096 % 64, 128 + c / 64 % 64, 128 + c % 64]

/-- UTF-8 bytes of a sequence of code points: model of `str.encode()`. -/
def utf8Encode (cs : List Nat) : List Nat := (cs.map utf8Char).flatten

/-- Code points of `chr(len(name)) + chr(len(value)) + name + value`,
the per-pair encoding built in `define_params` (line 85 of the source). -/
def encodePairChars (name value : List Nat) : List Nat :=
  name.length :: value.length :: (name ++ value)

/-- Code points of `''.join(params)` over all name/value pairs. -/
def paramsChars (ps : List (List Nat × List Nat)) : List Nat :=
  (ps.map (fun p => encodePairChars p.1 p.2)).flatten

/-- The `params_length` variable: `len(params)` of the joined Python `str`,
i.e. a count of code points, not of encoded bytes. -/
def params_length (ps : List (List Nat × List Nat)) : Nat :=
  (paramsChars ps).length

/-- The `params_padding_req` variable: `params_length & 7`. -/
def params_padding_req (ps : List (List Nat × List Nat)) : Nat :=
  params_length ps % 8

/-- Bytes of `struct.pack("!BBHHBx", version, rtype, requestId, contentLength,
padding)`. `struct.pack` raises on out-of-range fields; every use below is in
range, and the reductions mod 256 / 65536 only make the function total. -/
def packHeader (version rtype requestId contentLength padding : Nat) : List Nat :=
  [version % 256, rtype % 256, requestId / 256 % 256, requestId % 256,
   contentLength / 256 % 256, contentLength % 256, padding % 256, 0]

/-- Bytes of `self.fcgi_params` as assembled by `define_params`:
header, UTF-8 encoded parameter characters, `params_padding_req` zero bytes,
then the empty terminating PARAMS header. -/
def fcgi_params_record (ps : List (List Nat × List Nat)) : List Nat :=
  packHeader 1 4 1 (params_length ps) (params_padding_req ps)
    ++ utf8Encode (paramsChars ps)
    ++ List.replicate (params_padding_req ps) 0
    ++ packHeader 1 4 1 0 0

/-- The fixed parameter set built in `__init__` for a given status path. -/
def defaultParams (status_path : String) : List (List Nat × List Nat) :=
  [ (strCodes "SCRIPT_NAME", strCodes status_path),
    (strCodes "SCRIPT_FILENAME", strCodes status_path),
    (strCodes "QUERY_STRING", strCodes ""),
    (strCodes "REQUEST_METHOD", strCodes "GET") ]

/-- Modelled from the spec: the FastCGI name/value length field, one byte
when the length is at most 127, else four bytes big-endian with the top bit
of the first byte set. The source does not implement this rule; this
definition exists only to compare it with what the source emits. -/
def specLenBytes (n : Nat) : List Nat :=
  if n ≤ 127 then [n]
  else [128 + n / 16777216 % 128, n / 65536 % 256, n / 256 % 256, n % 256]

/-- Outcome of running (part of) the script: an explicit `sys.exit(code)`,
or an uncaught Python exception, which terminates the interpreter with
process exit status 1. -/
inductive PyExit where
  | exited : Nat → PyExit
  | raised : String → PyExit
deriving DecidableEq

/-- Process exit status produced by a `PyExit`: the argument of `sys.exit`,
or 1 for an uncaught exception. -/
def exitStatus : PyExit → Nat
  | .exited c => c
  | .raised _ => 1

/-- What the socket yields inside `execute`: a read timeout
(`socket.timeout` raised by `recv`) or the byte stream sent by the pool. -/
inductive RecvEvent where
  | timeout : RecvEvent
  | data : List Nat → RecvEvent
deriving DecidableEq

/-- The `execute` method (lines 98–115): one `recv` of 8 header bytes,
`struct.unpack("!BBHHBx", ...)`; on type 6 one `recv(request_length)`
whose result becomes `raw_status_data`; type 7 and any other type raise.
Every exception inside the `try` block (timeout, short header, raised
error) is caught by the bare `except` and becomes `sys.exit(3)`, the
`.error 3` value here.  Note that the decoded `fcgi_version` is never
inspected. -/
def execute (ev : RecvEvent) : Except Nat (List Nat) :=
  match ev with
  | .timeout => .error 3
  | .data s =>
    match s with
    | _fcgi_version :: rtype :: _rid1 :: _rid0 :: len1 :: len0 :: _pad :: _rsv :: rest =>
      if rtype = 6 then .ok (rest.take (len1 * 256 + len0))
      else .error 3
    | _ => .error 3

/-- Modelled from the spec: the record-stream read loop that §4.2 of the
spec describes (the source's `execute` has no such loop).  Per record it
reads an 8-byte header, then `contentLength + paddingLength` bytes
discarding the padding; STDOUT (6) content is accumulated, a zero-length
STDOUT record terminates the loop, other record types are skipped.  Fuel
bounds the recursion; the wrapper below supplies enough for any stream. -/
def readLoopGo : Nat → List Nat → List Nat → Option (List Nat)
  | 0, _, _ => none
  | fuel + 1, s, acc =>
    match s with
    | _v :: rtype :: _rid1 :: _rid0 :: len1 :: len0 :: pad :: _rsv :: rest =>
      let len := len1 * 256 + len0
      if rest.length < len + pad then none
      else if rtype = 6 ∧ len = 0 then some acc
      else readLoopGo fuel (rest.drop (len + pad))
             (acc ++ if rtype = 6 then rest.take len else [])
    | _ => none

/-- Modelled from the spec: run the read loop of §4.2 on a whole stream. -/
def readLoop (s : List Nat) : Option (List Nat) :=
  readLoopGo (s.length + 1) s []

/-- Model of `bytes.decode()` for the streams considered here: byte values
are taken as code points (on ASCII payloads UTF-8 decoding is exactly
this map). -/
def decodeBytes (l : List Nat) : List Char := l.map Char.ofNat

/-- Split a character list at every occurrence of the four-character
separator `"\r\n\r\n"`, scanning left to right without overlap, with `acc`
the piece collected so far: model of Python `str.split("\r\n\r\n")`. -/
def splitSepGo : List Char → List Char → List (List Char)
  | [], acc => [acc]
  | c1 :: c2 :: c3 :: c4 :: rest, acc =>
    if c1 = '\r' ∧ c2 = '\n' ∧ c3 = '\r' ∧ c4 = '\n' then
      acc :: splitSepGo rest []
    else
      splitSepGo (c2 :: c3 :: c4 :: rest) (acc ++ [c1])
  | c :: rest, acc => splitSepGo rest (acc ++ [c])

/-- Model of Python `payload.split("\r\n\r\n")`. -/
def splitSep (s : List Char) : List (List Char) := splitSepGo s []

/-- Whether `"\r\n\r\n"` occurs anywhere in the list. -/
def hasSep : List Char → Bool
  | c1 :: c2 :: c3 :: c4 :: rest =>
    if c1 = '\r' ∧ c2 = '\n' ∧ c3 = '\r' ∧ c4 = '\n' then true
    else hasSep (c2 :: c3 :: c4 :: rest)
  | _ => false

/-- Line 116 of the source:
`status_data = raw_status_data.decode().split("\r\n\r\n")[1]`, with the
`[1]` subscript made explicit: `none` is the `IndexError` the subscript
raises when the split has fewer than two parts.  This line sits outside
the `try` block, so that `IndexError` is uncaught. -/
def status_data_of (payload : List Char) : Option (List Char) :=
  (splitSep payload).get? 1

/-- Model of Python `str.splitlines()` for the line terminators `\r\n`,
`\r` and `\n` (the only ones occurring in CGI output); `acc` is the line
collected so far.  A trailing terminator does not open an empty final
line. -/
def splitlinesGo : List Char → List Char → List (List Char)
  | [], acc => if acc = [] then [] else [acc]
  | c1 :: c2 :: rest, acc =>
    if c1 = '\r' ∧ c2 = '\n' then acc :: splitlinesGo rest []
    else if c1 = '\r' ∨ c1 = '\n' then acc :: splitlinesGo (c2 :: rest) []
    else splitlinesGo (c2 :: rest) (acc ++ [c1])
  | [c], acc => if c = '\r' ∨ c = '\n' then [acc] else [acc ++ [c]]

/-- Model of Python `str.splitlines()`. -/
def splitlines (s : List Char) : List (List Char) := splitlinesGo s []

/-- Split at every occurrence of a single separator character, keeping
empty pieces: model of Python `str.split(sep)` with a one-character
separator such as `line.split(":")`. -/
def splitOnCharGo (sep : Char) : List Char → List Char → List (List Char)
  | [], acc => [acc]
  | c :: rest, acc =>
    if c = sep then acc :: splitOnCharGo sep rest []
    else splitOnCharGo sep rest (acc ++ [c])

/-- Model of Python `str.split(sep)` for a one-character separator. -/
def splitOnChar (sep : Char) (s : List Char) : List (List Char) :=
  splitOnCharGo sep s []

/-- Model of Python `str.split()` with no argument: split on runs of
whitespace, producing no empty tokens. -/
def splitWSGo : List Char → List Char → List (List Char)
  | [], acc => if acc = [] then [] else [acc]
  | c :: rest, acc =>
    if c.isWhitespace then
      if acc = [] then splitWSGo rest [] else acc :: splitWSGo rest []
    else splitWSGo rest (acc ++ [c])

/-- Model of Python `str.split()` with no argument. -/
def pySplitWS (s : List Char) : List (List Char) := splitWSGo s []

instance {ε α : Type} [DecidableEq ε] [DecidableEq α] : DecidableEq (Except ε α) := fun a b =>
  match a, b with
  | .ok x, .ok y => if h : x = y then .isTrue (by rw [h]) else .isFalse (by simp [h])
  | .error x, .error y => if h : x = y then .isTrue (by rw [h]) else .isFalse (by simp [h])
  | .ok _, .error _ => .isFalse (by simp)
  | .error _, .ok _ => .isFalse (by simp)

/-- Snapshot dictionary: a Python `dict` from metric name to raw value,
as an insertion-ordered association list. -/
abbrev Snapshot := List (List Char × List Char)

/-- Model of Python `d[k] = v`: replace in place if the key is present,
else append. -/
def dictSet (d : Snapshot) (k v : List Char) : Snapshot :=
  match d with
  | [] => [(k, v)]
  | (k2, v2) :: rest => if k2 = k then (k, v) :: rest else (k2, v2) :: dictSet rest k v

/-- One iteration of the `output_json_status` loop (lines 130–134): split
the line on every colon, take element 0 as the key, and assign each
whitespace token of element 1 in turn.  A line with no colon makes the
`params[1]` subscript raise `IndexError`. -/
def parseLineCode (d : Snapshot) (line : List Char) : Except String Snapshot :=
  let params := splitOnChar ':' line
  match params.get? 1 with
  | none => .error "IndexError"
  | some second =>
    .ok ((pySplitWS second).foldl (fun acc v => dictSet acc (params.headD []) v) d)

/-- The `output_json_status` method (lines 128–135) applied to the lines
of `status_data` (the `json.dumps`/`json.loads` round trip in the caller
is the identity on this dictionary and is omitted). -/
def output_json_status (lines : List (List Char)) : Except String Snapshot :=
  lines.foldlM parseLineCode []

/-- Digits of a nonempty all-digit character list as a number, else `none`. -/
def digitsToNat : List Char → Option Nat
  | [] => none
  | cs => if cs.all Char.isDigit then some (cs.foldl (fun n c => n * 10 + (c.toNat - 48)) 0) else none

/-- Model of Python `int(s)` on a string: optional surrounding whitespace,
an optional single sign, then decimal digits; anything else raises
`ValueError`.  (Underscore digit separators, which never occur in the
numeric fields of a status page, are not modelled.) -/
def pyInt (s : List Char) : Option Int :=
  let t := (s.dropWhile Char.isWhitespace).reverse.dropWhile Char.isWhitespace |>.reverse
  match t with
  | '-' :: rest => (digitsToNat rest).map (fun n => -(n : Int))
  | '+' :: rest => (digitsToNat rest).map (fun n => (n : Int))
  | cs => (digitsToNat cs).map (fun n => (n : Int))

/-- The expression `int(fpm_status[key])`: `KeyError` when the key is
absent, `ValueError` when the value is not an integer literal. -/
def getMetric (snap : Snapshot) (key : String) : Except String Int :=
  match snap.lookup (strChars key) with
  | none => .error ("KeyError: " ++ key)
  | some v =>
    match pyInt v with
    | none => .error "ValueError"
    | some n => .ok n

/-- The module-level metric evaluation (lines 204–226 of the source),
given the four thresholds and the parsed snapshot.  Python's chained
comparisons are kept exactly: `listen_queue >= listen_queue_warning <
listen_queue_critical` means `listen_queue ≥ qw ∧ qw < qc`, and likewise
for the utilization pair.  `active_procs/total_procs*100` is true
division; it is modelled in `ℚ` (exact for every comparison made here),
and a zero `total_procs` raises `ZeroDivisionError`. -/
def snapshotEval (qw qc pw pc : Int) (snap : Snapshot) : PyExit :=
  match getMetric snap "listen queue" with
  | .error e => .raised e
  | .ok listen_queue =>
    if listen_queue ≥ qw ∧ qw < qc then .exited 1
    else if listen_queue ≥ qc then .exited 2
    else
      match getMetric snap "active processes" with
      | .error e => .raised e
      | .ok active_procs =>
        match getMetric snap "total processes" with
        | .error e => .raised e
        | .ok total_procs =>
          if total_procs = 0 then .raised "ZeroDivisionError"
          else
            let used_pct : ℚ := (active_procs : ℚ) / (total_procs : ℚ) * 100
            if used_pct ≥ (pw : ℚ) ∧ pw < pc then .exited 1
            else if used_pct ≥ (pc : ℚ) then .exited 2
            else .exited 0

/-- The four threshold-validation checks (lines 183–197).  Each check
prints a message and calls `sys.exit(3)`, so only whether any check fires
is observable in the exit status. -/
def thresholdsRejected (qw qc pw pc : Int) : Bool :=
  if qw ≥ qc then true
  else if pw ≥ pc then true
  else if pw < 0 ∨ pw > 100 then true
  else if pc < 0 ∨ pc > 100 then true
  else false

/-- The whole script after argument parsing, as a function of the four
thresholds and of the behaviour of the socket: `conn` is whether
`socket.connect` succeeds (its failure is caught and exits 3), `ev` is
what the reads yield.  The second component records whether any socket
operation was attempted.  After a successful `execute`, line 116 extracts
the body (its `IndexError` is uncaught), `output_json_status` parses it
(its `IndexError` is uncaught), and the metric checks run. -/
def runCheck (qw qc pw pc : Int) (conn : Bool) (ev : RecvEvent) : PyExit × Bool :=
  if thresholdsRejected qw qc pw pc then (.exited 3, false)
  else if ¬ conn then (.exited 3, true)
  else
    match execute ev with
    | .error c => (.exited c, true)
    | .ok raw =>
      match status_data_of (decodeBytes raw) with
      | none => (.raised "IndexError", true)
      | some body =>
        match output_json_status (splitlines body) with
        | .error e => (.raised e, true)
        | .ok snap => (snapshotEval qw qc pw pc snap, true)

/-- Modelled from the claim (C6): split each line at the FIRST colon into a
key and a rest, take the last whitespace-separated token of the whole rest,
and silently skip lines with no colon.  The source does not implement this
rule; this definition exists only to compare it with `output_json_status`. -/
def claimParse (lines : List (List Char)) : Snapshot :=
  lines.foldl
    (fun d line =>
      match splitOnChar ':' line with
      | [] => d
      | [_] => d
      | key :: restParts =>
        match (pySplitWS (List.intercalate [':'] restParts)).getLast? with
        | none => d
        | some t => dictSet d key t)
    []

/-- One line of `output_json_status` restated declaratively: element 1 of
the all-colon split provides the value, and only its last whitespace token
is kept; a line with fewer than two colon segments raises `IndexError`. -/
def lastTokenParse (d : Snapshot) (line : List Char) : Except String Snapshot :=
  let params := splitOnChar ':' line
  match params.get? 1 with
  | none => .error "IndexError"
  | some second =>
    .ok (match (pySplitWS second).getLast? with
         | none => d
         | some t => dictSet d (params.headD []) t)

/-- Declarative restatement of `output_json_status`, folded from
`lastTokenParse`. -/
def amendedParse (lines : List (List Char)) : Except String Snapshot :=
  lines.foldlM lastTokenParse []

/-- Failing snapshot for C1: Scenario C of the spec (`listen queue` 0,
95 of 100 workers active). -/
def c1_snapshot : Snapshot :=
  [(strChars "listen queue", strChars "0"),
   (strChars "active processes", strChars "95"),
   (strChars "total processes", strChars "100")]

/-- Response stream for C3: two nonempty STDOUT records (`"AB"`, `"CD"`)
followed by the zero-length STDOUT terminator. -/
def c3stream : List Nat :=
  [1, 6, 0, 1, 0, 2, 0, 0] ++ [65, 66]
    ++ [1, 6, 0, 1, 0, 2, 0, 0] ++ [67, 68]
    ++ [1, 6, 0, 1, 0, 0, 0, 0]

/-- Response stream for C7: a single STDOUT record whose header carries
protocol version 0 instead of 1, with a well-formed status body. -/
def c7stream : List Nat :=
  0 :: 6 :: 0 :: 1 :: 0 :: 20 :: 0 :: 0 :: strCodes "x\r\n\r\nlisten queue: 7"

/-- Parameter list for C10: a one-character ASCII name and a 128-byte
ASCII value. -/
def c10pairs : List (List Nat × List Nat) :=
  [(strCodes "a", List.replicate 128 97)]

/-- C1: the claim says the evaluator returns CRITICAL (exit 2) exactly when
a metric reaches its critical threshold, and in particular that the
snapshot {listen queue 0, active 95, total 100} against utilization
thresholds (70, 90) exits 2.  The code disagrees: the chained comparison
`used_pct >= active_percent_warning < active_percent_critical` means
`used_pct ≥ 70 ∧ 70 < 90`, so the WARNING branch captures every CRITICAL
value and the program exits 1 — and likewise a listen queue of 15 against
queue thresholds (5, 10) exits 1, not 2. -/
theorem c1_critical_branch_unreachable :
    snapshotEval 5 10 70 90 c1_snapshot = .exited 1 ∧
    snapshotEval 5 10 70 90 [(strChars "listen queue", strChars "15")] = .exited 1 := by
  constructor
  · have h1 : getMetric c1_snapshot "listen queue" = .ok 0 := by decide
    have h2 : getMetric c1_snapshot "active processes" = .ok 95 := by decide
    have h3 : getMetric c1_snapshot "total processes" = .ok 100 := by decide
    rw [snapshotEval, h1, h2, h3]
    norm_num
  · decide

/-- C2: the claim says every PARAMS record satisfies
`(contentLength + paddingLength) % 8 = 0`.  On the default parameter set
the content length is 77 and the code emits `77 & 7 = 5` padding bytes
(instead of the complement 3), so the sum is 82 ≡ 2 (mod 8); the header
fields and the five zero padding bytes are as the code writes them. -/
theorem c2_padding_misaligned :
    params_length (defaultParams "/status") = 77 ∧
    params_padding_req (defaultParams "/status") = 5 ∧
    (77 + 5) % 8 = 2 ∧
    (fcgi_params_record (defaultParams "/status")).take 8 = [1, 4, 0, 1, 0, 77, 5, 0] ∧
    ((fcgi_params_record (defaultParams "/status")).drop 85).take 5 = List.replicate 5 0 := by
  decide

/-- C4: the claim says a length of 128 or more is encoded as a 4-byte
big-endian prefix with the top bit set.  For the pair ("a", 128 × "a") the
code instead emits `chr(128)` and UTF-8 encodes it, yielding the two bytes
194, 128 where the claimed rule yields 128, 0, 0, 128. -/
theorem c4_long_prefix_miscoded :
    utf8Encode (encodePairChars (strCodes "a") (List.replicate 128 97)) =
      1 :: 194 :: 128 :: 97 :: List.replicate 128 97 ∧
    specLenBytes (strCodes "a").length ++ specLenBytes 128 ++ strCodes "a"
        ++ List.replicate 128 97 =
      1 :: 128 :: 0 :: 0 :: 128 :: 97 :: List.replicate 128 97 ∧
    (1 :: 194 :: 128 :: 97 :: List.replicate 128 97 : List Nat) ≠
      1 :: 128 :: 0 :: 0 :: 128 :: 97 :: List.replicate 128 97 := by
  decide

/-- C5, counterexample: on a snapshot with no `listen queue` entry the
claim predicts exit code 3; the code raises an uncaught `KeyError`, so the
interpreter exits with status 1. -/
theorem c5_counterexample :
    snapshotEval 5 10 70 90 [] = .raised "KeyError: listen queue" ∧
    exitStatus (snapshotEval 5 10 70 90 []) = 1 := by decide

/-- C6, counterexample: on the line `"a: b:c"` the first-colon rule of the
claim stores `"b:c"`, but the code stores only `"b"` (the segment between
the first and second colon); and on a line with no colon the claim says
the parser never raises, but the code raises `IndexError`. -/
theorem c6_counterexample :
    output_json_status [strChars "a: b:c"] = .ok [(strChars "a", strChars "b")] ∧
    claimParse [strChars "a: b:c"] = [(strChars "a", strChars "b:c")] ∧
    output_json_status [strChars "no colon"] = .error "IndexError" ∧
    claimParse [strChars "no colon"] = [] := by decide

/-- C9, counterexample: the claim says body extraction succeeds on every
payload, including one with no `"\r\n\r\n"` separator; on `"hello"` the
`[1]` subscript raises an uncaught `IndexError`.  Moreover with two
separators the code keeps only the part between the first and second one,
not all text after the first. -/
theorem c9_counterexample :
    status_data_of (strChars "hello") = none ∧
    status_data_of (strChars "h\r\n\r\nA\r\n\r\nB") = some (strChars "A") ∧
    strChars "A" ≠ strChars "A\r\n\r\nB" := by decide

/-- C10, counterexample: an all-ASCII pair whose value is 128 bytes long
makes the declared content length (a character count, 131) differ from
the emitted byte count (132), because `chr(128)` UTF-8 encodes to two
bytes. -/
theorem c10_counterexample :
    (∀ p ∈ c10pairs, (∀ c ∈ p.1, c < 128) ∧ (∀ c ∈ p.2, c < 128)) ∧
    params_length c10pairs = 131 ∧
    (utf8Encode (paramsChars c10pairs)).length = 132 := by decide

/-- C3, counterexample: the claim describes a read loop accumulating every
STDOUT record up to the zero-length terminator.  On a stream of two
STDOUT records "AB", "CD" plus terminator, that loop yields "ABCD", but
the code's `execute` reads a single record and returns "AB". -/
theorem c3_counterexample :
    execute (.data c3stream) = .ok [65, 66] ∧
    readLoop c3stream = some [65, 66, 67, 68] ∧
    ([65, 66] : List Nat) ≠ [65, 66, 67, 68] := by decide

/-- C7, counterexample: the claim says a response record whose version
field is not 1 terminates the program with exit status 3.  The code never
inspects the decoded version: a version-0 STDOUT record with a valid body
is processed normally and the run ends with exit code 1 from the queue
check, not 3. -/
theorem c7_counterexample :
    c7stream.get? 0 = some 0 ∧
    runCheck 5 10 70 90 true (.data c7stream) = (.exited 1, true) := by decide

/-- C8: a threshold configuration with `queueWarning ≥ queueCritical`, or
`utilizationWarning ≥ utilizationCritical`, or a utilization bound outside
[0, 100], makes the program exit 3 before attempting any socket operation,
whatever the socket would have done. -/
theorem c8_rejected_before_io (qw qc pw pc : Int) (conn : Bool) (ev : RecvEvent)
    (h : qw ≥ qc ∨ pw ≥ pc ∨ pw < 0 ∨ pw > 100 ∨ pc < 0 ∨ pc > 100) :
    runCheck qw qc pw pc conn ev = (.exited 3, false) := by
  have hrej : thresholdsRejected qw qc pw pc = true := by
    unfold thresholdsRejected
    split_ifs <;> first | rfl | omega
  simp [runCheck, hrej]

theorem c8_rejected_before_io_witness :
    runCheck 10 5 70 90 true .timeout = (.exited 3, false) :=
  c8_rejected_before_io 10 5 70 90 true .timeout (Or.inl (by norm_num))

/-- C3 as amended: the response reader performs no loop.  It reads a
single 8-byte header and, for an STDOUT (type 6) record, the next
`contentLength` bytes become the whole payload — the padding is not
consumed and any later records (including the zero-length terminator) are
ignored; a record of any other type (STDERR included) is an error that
exits 3.  The version, request-id, padding and reserved header bytes are
arbitrary here because `execute` never uses them. -/
theorem c3_single_record_read (v rid1 rid0 pad rsv len t : Nat)
    (content extra : List Nat) (hlen : content.length = len) (hmax : len < 65536) :
    execute (.data (v :: 6 :: rid1 :: rid0 :: len / 256 :: len % 256 :: pad :: rsv ::
        (content ++ extra))) = .ok content
    ∧ (t ≠ 6 →
        execute (.data (v :: t :: rid1 :: rid0 :: len / 256 :: len % 256 :: pad :: rsv ::
          (content ++ extra))) = .error 3) := by
  subst hlen
  constructor
  · have hdm : content.length / 256 * 256 + content.length % 256 = content.length := by omega
    simp [execute, hdm, List.take_left]
  · intro ht
    simp [execute, ht]

theorem c3_single_record_read_witness :
    execute (.data [1, 6, 0, 1, 0, 2, 0, 0, 65, 66, 99]) = .ok [65, 66] ∧
    execute (.data [1, 9, 0, 1, 0, 2, 0, 0, 65, 66, 99]) = .error 3 := by
  have h := c3_single_record_read 1 0 1 0 0 2 9 [65, 66] [99] (by decide) (by decide)
  exact ⟨h.1, h.2 (by decide)⟩

/-- C7 as amended: once a valid threshold configuration lets the program
reach the transport stage, a connect failure, a read timeout, a STDERR
(type 7) response record and a response record of any other unexpected
type each terminate the program with exit status 3.  The clause of the
claim about a protocol-version mismatch does not hold: the version byte
is decoded but never inspected (see the counterexample). -/
theorem c7_failures_exit3 (qw qc pw pc : Int)
    (h : thresholdsRejected qw qc pw pc = false) :
    (∀ ev, runCheck qw qc pw pc false ev = (.exited 3, true))
    ∧ runCheck qw qc pw pc true .timeout = (.exited 3, true)
    ∧ (∀ v rid1 rid0 len1 len0 pad rsv rest,
        runCheck qw qc pw pc true
          (.data (v :: 7 :: rid1 :: rid0 :: len1 :: len0 :: pad :: rsv :: rest)) =
          (.exited 3, true))
    ∧ (∀ v t rid1 rid0 len1 len0 pad rsv rest, t ≠ 6 →
        runCheck qw qc pw pc true
          (.data (v :: t :: rid1 :: rid0 :: len1 :: len0 :: pad :: rsv :: rest)) =
          (.exited 3, true)) := by
  refine ⟨fun ev => ?_, ?_,
    fun v rid1 rid0 len1 len0 pad rsv rest => ?_,
    fun v t rid1 rid0 len1 len0 pad rsv rest ht => ?_⟩
  · cases ev <;> simp [runCheck, h, execute]
  · simp [runCheck, h, execute]
  · simp [runCheck, h, execute]
  · simp [runCheck, h, execute, ht]

theorem c7_failures_exit3_witness :
    runCheck 5 10 70 90 false .timeout = (.exited 3, true) ∧
    runCheck 5 10 70 90 true .timeout = (.exited 3, true) ∧
    runCheck 5 10 70 90 true (.data [1, 7, 0, 1, 0, 0, 0, 0]) = (.exited 3, true) ∧
    runCheck 5 10 70 90 true (.data [1, 11, 0, 1, 0, 0, 0, 0]) = (.exited 3, true) := by
  have h := c7_failures_exit3 5 10 70 90 (by decide)
  exact ⟨h.1 .timeout, h.2.1, h.2.2.1 1 0 1 0 0 0 0 [],
    h.2.2.2 1 11 0 1 0 0 0 0 [] (by decide)⟩

/-- C5 as amended: a missing or non-integer required metric, and a zero
`total processes`, are never treated as zero and never produce a division
— the corresponding exception (`KeyError`, `ValueError`,
`ZeroDivisionError`) propagates uncaught, so the interpreter exits with
status 1, not with the claimed UNKNOWN code 3.  The queue metric is
consulted unconditionally; the process metrics are consulted only when
neither listen-queue branch already exited. -/
theorem c5_uncaught_metric_errors (qw qc pw pc : Int) (snap : Snapshot) :
    (∀ e, getMetric snap "listen queue" = .error e →
        snapshotEval qw qc pw pc snap = .raised e ∧
        exitStatus (snapshotEval qw qc pw pc snap) = 1)
    ∧ (∀ lq e, getMetric snap "listen queue" = .ok lq →
        ¬(lq ≥ qw ∧ qw < qc) → ¬lq ≥ qc →
        getMetric snap "active processes" = .error e →
        snapshotEval qw qc pw pc snap = .raised e ∧
        exitStatus (snapshotEval qw qc pw pc snap) = 1)
    ∧ (∀ lq a e, getMetric snap "listen queue" = .ok lq →
        ¬(lq ≥ qw ∧ qw < qc) → ¬lq ≥ qc →
        getMetric snap "active processes" = .ok a →
        getMetric snap "total processes" = .error e →
        snapshotEval qw qc pw pc snap = .raised e ∧
        exitStatus (snapshotEval qw qc pw pc snap) = 1)
    ∧ (∀ lq a, getMetric snap "listen queue" = .ok lq →
        ¬(lq ≥ qw ∧ qw < qc) → ¬lq ≥ qc →
        getMetric snap "active processes" = .ok a →
        getMetric snap "total processes" = .ok 0 →
        snapshotEval qw qc pw pc snap = .raised "ZeroDivisionError" ∧
        exitStatus (snapshotEval qw qc pw pc snap) = 1) := by
  refine ⟨fun e he => ?_, fun lq e hlq h1 h2 ha => ?_,
    fun lq a e hlq h1 h2 ha ht => ?_, fun lq a hlq h1 h2 ha ht => ?_⟩
  · rw [snapshotEval, he]
    exact ⟨rfl, rfl⟩
  · rw [snapshotEval, hlq]
    simp only [if_neg h1, if_neg h2, ha]
    exact ⟨trivial, rfl⟩
  · rw [snapshotEval, hlq]
    simp only [if_neg h1, if_neg h2, ha, ht]
    exact ⟨trivial, rfl⟩
  · rw [snapshotEval, hlq]
    simp only [if_neg h1, if_neg h2, ha, ht]
    norm_num [exitStatus]

theorem c5_uncaught_metric_errors_witness :
    snapshotEval 5 10 70 90
      [(strChars "listen queue", strChars "0"),
       (strChars "active processes", strChars "5"),
       (strChars "total processes", strChars "0")] = .raised "ZeroDivisionError" := by
  have h := c5_uncaught_metric_errors 5 10 70 90
    [(strChars "listen queue", strChars "0"),
     (strChars "active processes", strChars "5"),
     (strChars "total processes", strChars "0")]
  exact (h.2.2.2 0 5 (by decide) (by norm_num) (by norm_num) (by decide) (by decide)).1

theorem dictSet_dictSet (d : Snapshot) (k a b : List Char) :
    dictSet (dictSet d k a) k b = dictSet d k b := by
  induction d with
  | nil => simp [dictSet]
  | cons p rest ih =>
    obtain ⟨k2, v2⟩ := p
    by_cases h : k2 = k
    · simp [dictSet, h]
    · simp [dictSet, h, ih]

theorem foldl_dictSet_last (k : List Char) (toks : List (List Char)) :
    ∀ d, toks.foldl (fun acc v => dictSet acc k v) d =
      match toks.getLast? with
      | none => d
      | some t => dictSet d k t := by
  induction toks with
  | nil => intro d; rfl
  | cons t ts ih =>
    intro d
    cases ts with
    | nil => rfl
    | cons u us =>
      rw [List.foldl_cons, ih (dictSet d k t), List.getLast?_cons_cons]
      obtain ⟨w, hw⟩ : ∃ w, (u :: us).getLast? = some w := by
        cases hl : (u :: us).getLast? with
        | none => exact absurd hl (by simp)
        | some w => exact ⟨w, rfl⟩
      rw [hw]
      exact dictSet_dictSet d k t w

/-- C6 as amended: the parser splits each line at EVERY colon and uses
only the segment between the first and second colon (element 1 of the
split) as the value source; the last whitespace-separated token of that
segment is stored, earlier tokens and later segments are dropped; and a
line with fewer than two colon segments raises an uncaught `IndexError`
instead of being silently skipped. -/
theorem c6_parser_equivalence : ∀ lines, output_json_status lines = amendedParse lines := by
  have hstep : ∀ d line, parseLineCode d line = lastTokenParse d line := by
    intro d line
    unfold parseLineCode lastTokenParse
    dsimp only
    cases h : (splitOnChar ':' line).get? 1 with
    | none => rfl
    | some second => simp [foldl_dictSet_last]
  have hgen : ∀ (lines : List (List Char)) (d : Snapshot),
      List.foldlM parseLineCode d lines = List.foldlM lastTokenParse d lines := by
    intro lines
    induction lines with
    | nil => intro d; rfl
    | cons l ls ih =>
      intro d
      rw [List.foldlM_cons, List.foldlM_cons, hstep]
      cases lastTokenParse d l with
      | error e => rfl
      | ok d2 => simpa using ih d2
  intro lines
  exact hgen lines []

theorem splitSepGo_short (s acc : List Char) (h : s.length ≤ 3) :
    splitSepGo s acc = [acc ++ s] := by
  rcases s with _ | ⟨a, _ | ⟨b, _ | ⟨c, _ | ⟨d, t⟩⟩⟩⟩
  · simp [splitSepGo]
  · simp [splitSepGo]
  · simp [splitSepGo]
  · simp [splitSepGo]
  · simp only [List.length_cons] at h; omega

theorem splitSepGo_cons (c : Char) (t acc : List Char) (ht : 3 ≤ t.length) :
    splitSepGo (c :: t) acc =
      if c = '\r' ∧ t.take 3 = ['\n', '\r', '\n'] then acc :: splitSepGo (t.drop 3) []
      else splitSepGo t (acc ++ [c]) := by
  rcases t with _ | ⟨a, _ | ⟨b, _ | ⟨d, rest⟩⟩⟩
  · simp at ht
  · simp at ht
  · simp at ht
  · by_cases hc : c = '\r' ∧ a = '\n' ∧ b = '\r' ∧ d = '\n'
    · obtain ⟨h1, h2, h3, h4⟩ := hc
      subst h1; subst h2; subst h3; subst h4
      simp [splitSepGo]
    · have hc2 : ¬(c = '\r' ∧ (a :: b :: d :: rest).take 3 = ['\n', '\r', '\n']) := by
        simpa using hc
      rw [if_neg hc2]
      simp only [splitSepGo]
      rw [if_neg hc]

theorem hasSep_cons (c : Char) (t : List Char) (ht : 3 ≤ t.length) :
    hasSep (c :: t) =
      if c = '\r' ∧ t.take 3 = ['\n', '\r', '\n'] then true else hasSep t := by
  rcases t with _ | ⟨a, _ | ⟨b, _ | ⟨d, rest⟩⟩⟩
  · simp at ht
  · simp at ht
  · simp at ht
  · by_cases hc : c = '\r' ∧ a = '\n' ∧ b = '\r' ∧ d = '\n'
    · obtain ⟨h1, h2, h3, h4⟩ := hc
      subst h1; subst h2; subst h3; subst h4
      simp [hasSep]
    · have hc2 : ¬(c = '\r' ∧ (a :: b :: d :: rest).take 3 = ['\n', '\r', '\n']) := by
        simpa using hc
      rw [if_neg hc2]
      simp only [hasSep]
      rw [if_neg hc]

theorem splitSepGo_no_sep (s : List Char) :
    hasSep s = false → ∀ acc, splitSepGo s acc = [acc ++ s] := by
  induction s with
  | nil => intro _ acc; simp [splitSepGo]
  | cons c t ih =>
    intro hf acc
    by_cases h3 : 3 ≤ t.length
    · rw [splitSepGo_cons c t acc h3]
      rw [hasSep_cons c t h3] at hf
      by_cases hc : c = '\r' ∧ t.take 3 = ['\n', '\r', '\n']
      · rw [if_pos hc] at hf
        exact absurd hf (by simp)
      · rw [if_neg hc] at hf
        rw [if_neg hc, ih hf (acc ++ [c])]
        simp
    · exact splitSepGo_short _ _ (by simp only [List.length_cons]; omega)

theorem splitSepGo_first_sep (h : List Char) :
    ∀ (b acc : List Char), hasSep (h ++ ['\r', '\n', '\r']) = false →
      splitSepGo (h ++ '\r' :: '\n' :: '\r' :: '\n' :: b) acc =
        (acc ++ h) :: splitSepGo b [] := by
  induction h with
  | nil => intro b acc _; simp [splitSepGo]
  | cons c h2 ih =>
    intro b acc hf
    have hlen : 3 ≤ (h2 ++ '\r' :: '\n' :: '\r' :: '\n' :: b).length := by simp; omega
    rw [List.cons_append, splitSepGo_cons c _ acc hlen]
    have hsplit : h2 ++ '\r' :: '\n' :: '\r' :: '\n' :: b =
        (h2 ++ ['\r', '\n', '\r']) ++ '\n' :: b := by simp
    have htake : (h2 ++ '\r' :: '\n' :: '\r' :: '\n' :: b).take 3 =
        (h2 ++ ['\r', '\n', '\r']).take 3 := by
      rw [hsplit, List.take_append_of_le_length (by simp)]
    have hlen2 : 3 ≤ (h2 ++ ['\r', '\n', '\r']).length := by simp
    rw [List.cons_append, hasSep_cons c _ hlen2] at hf
    by_cases hc : c = '\r' ∧ (h2 ++ ['\r', '\n', '\r']).take 3 = ['\n', '\r', '\n']
    · rw [if_pos hc] at hf
      exact absurd hf (by simp)
    · rw [if_neg hc] at hf
      have hc2 : ¬(c = '\r' ∧
          (h2 ++ '\r' :: '\n' :: '\r' :: '\n' :: b).take 3 = ['\n', '\r', '\n']) := by
        rw [htake]; exact hc
      rw [if_neg hc2, ih b (acc ++ [c]) hf]
      simp

/-- C9 as amended: body extraction returns the split segment at index 1 —
the text between the first and second blank-line separators (running to
the end of the payload when only one separator exists) — and the `[1]`
subscript raises an uncaught `IndexError` (the `none` case here) when the
payload contains no `"\r\n\r\n"` separator at all, contrary to the
claim's "does not fail". -/
theorem c9_body_extraction (raw h b : List Char) :
    (hasSep raw = false → status_data_of raw = none)
    ∧ (hasSep (h ++ ['\r', '\n', '\r']) = false → hasSep b = false →
        status_data_of (h ++ '\r' :: '\n' :: '\r' :: '\n' :: b) = some b) := by
  constructor
  · intro hf
    unfold status_data_of splitSep
    rw [splitSepGo_no_sep raw hf []]
    rfl
  · intro hf1 hf2
    unfold status_data_of splitSep
    rw [splitSepGo_first_sep h b [] hf1, splitSepGo_no_sep b hf2 []]
    rfl

theorem c9_body_extraction_witness :
    status_data_of (strChars "nosep") = none ∧
    status_data_of (strChars "x" ++ '\r' :: '\n' :: '\r' :: '\n' :: strChars "body") =
      some (strChars "body") := by
  have h := c9_body_extraction (strChars "nosep") (strChars "x") (strChars "body")
  exact ⟨h.1 (by decide), h.2 (by decide) (by decide)⟩

theorem utf8Char_ascii (c : Nat) (h : c < 128) : utf8Char c = [c] := by
  unfold utf8Char
  rw [if_pos h]

theorem utf8Encode_ascii (l : List Nat) : (∀ c ∈ l, c < 128) → utf8Encode l = l := by
  induction l with
  | nil => intro _; rfl
  | cons c t ih =>
    intro h
    show (List.map utf8Char (c :: t)).flatten = c :: t
    rw [List.map_cons, List.flatten_cons, utf8Char_ascii c (h c (List.mem_cons_self c t))]
    rw [show (List.map utf8Char t).flatten = t from
      ih (fun x hx => h x (List.mem_cons_of_mem c hx))]
    rfl

theorem paramsChars_ascii (ps : List (List Nat × List Nat))
    (h : ∀ p ∈ ps, (∀ c ∈ p.1, c < 128) ∧ (∀ c ∈ p.2, c < 128) ∧
        p.1.length ≤ 127 ∧ p.2.length ≤ 127) :
    ∀ c ∈ paramsChars ps, c < 128 := by
  induction ps with
  | nil => intro c hc; simp [paramsChars] at hc
  | cons p rest ih =>
    intro c hc
    obtain ⟨h1, h2, h3, h4⟩ := h p (List.mem_cons_self p rest)
    simp only [paramsChars, List.map_cons, List.flatten_cons, List.mem_append] at hc
    rcases hc with hc | hc
    · simp only [encodePairChars, List.mem_cons, List.mem_append] at hc
      rcases hc with hc | hc | hc | hc
      · omega
      · omega
      · exact h1 c hc
      · exact h2 c hc
    · exact ih (fun q hq => h q (List.mem_cons_of_mem p hq)) c hc

/-- C10 as amended: when every name and value consists of ASCII characters
AND has length at most 127 (so that the length-prefix characters are also
ASCII), the content length declared in the PARAMS header — a character
count — equals the number of UTF-8 bytes emitted for the content.  Without
the length bound the equality fails even for ASCII data (see the
counterexample), because `chr(len)` for a length of 128 or more encodes to
more than one byte. -/
theorem c10_ascii_content_length (ps : List (List Nat × List Nat))
    (h : ∀ p ∈ ps, (∀ c ∈ p.1, c < 128) ∧ (∀ c ∈ p.2, c < 128) ∧
        p.1.length ≤ 127 ∧ p.2.length ≤ 127) :
    params_length ps = (utf8Encode (paramsChars ps)).length := by
  rw [utf8Encode_ascii (paramsChars ps) (paramsChars_ascii ps h)]
  rfl

theorem c10_ascii_content_length_witness :
    params_length (defaultParams "/status") =
      (utf8Encode (paramsChars (defaultParams "/status"))).length :=
  c10_ascii_content_length (defaultParams "/status") (by decide)

end CheckPhpFpm
